import Mathlib

/-!
Verification of the MeshCom frame codec of the LoRa433APRSTracker repository.

The Lean definitions below are a shallow embedding of the Python sources:
the text-frame builder and parser from code.py and the position-frame
builder from meshcom.py.  Byte buffers are modelled as List Nat whose
elements are byte values, machine integers as Nat or Int reduced with
explicit modulus, and real arithmetic as exact rational arithmetic.
A Python mask of the form x AND (2 pow k - 1) on a nonnegative integer is
written x % 2 pow k, which is the same function; a Python OR of byte
fields occupying disjoint bit ranges is written as addition, which agrees
with OR on such operands.  Fallible Python code, namely raised exceptions
and ASCII encode errors, is modelled with Except.
-/

/-- Little-endian 4-byte serialisation, as Python int.to_bytes 4 little.
Each entry is one byte of the value, least significant first. -/
def le4 (v : Nat) : List Nat :=
  [v % 256, v / 256 % 256, v / 65536 % 256, v / 16777216 % 256]

/-- Python str.encode ascii: succeeds when every character is a code point
below 128 and yields the code points, otherwise raises UnicodeEncodeError. -/
def encodeAscii (s : String) : Except String (List Nat) :=
  if s.data.all (fun c => c.toNat < 128) then .ok (s.data.map Char.toNat)
  else .error ("UnicodeEncodeError")

/-- Left-pad a character list with zeros up to the given width, as done by
the zero-padding width field of a Python format specification. -/
def zfill (w : Nat) (cs : List Char) : List Char :=
  List.replicate (w - cs.length) '0' ++ cs

/-- Decimal digits with an explicit fuel bound driving the structural
recursion; the fuel is never exhausted when it is at least the number. -/
def natDigitsFuel : Nat → Nat → List Nat
  | 0, n => [n % 10]
  | fuel + 1, n => if n < 10 then [n] else natDigitsFuel fuel (n / 10) ++ [n % 10]

/-- Decimal digits of a natural number, most significant first. -/
def natDigits (n : Nat) : List Nat :=
  natDigitsFuel n n

/-- Decimal representation of a natural number as characters. -/
def natDecRepr (n : Nat) : List Char :=
  (natDigits n).map (fun d => Char.ofNat (48 + d))

/-- Fixed six-digit zero-padded decimal rendering, as the Python format
specification 06d applied to a nonnegative integer. -/
def pad6 (n : Nat) : String :=
  String.mk (zfill 6 (natDecRepr n))

/-- Exact product of two rationals through mkRat.  The Batteries
multiplication on the rationals is irreducible, so this equal function is
used inside the executable definitions; qmul_eq below restates it as the
ordinary product. -/
def qmul (a b : ℚ) : ℚ := mkRat (a.num * b.num) (a.den * b.den)

/-- Exact sum of two rationals through mkRat; see qmul. -/
def qadd (a b : ℚ) : ℚ := mkRat (a.num * (b.den : Int) + b.num * (a.den : Int)) (a.den * b.den)

/-- Exact difference of two rationals through mkRat; see qmul. -/
def qsub (a b : ℚ) : ℚ := mkRat (a.num * (b.den : Int) - b.num * (a.den : Int)) (a.den * b.den)

/-- Exact absolute value of a rational through mkRat; see qmul. -/
def qabs (a : ℚ) : ℚ := mkRat (a.num.natAbs : Int) a.den

/-- Round-half-to-even on rationals, the rounding used by Python float
formatting.  All call sites in this development are far from ties. -/
def roundHalfEven (x : ℚ) : Int :=
  let n := ⌊x⌋
  let f := qsub x (mkRat n 1)
  if f < mkRat 1 2 then n
  else if mkRat 1 2 < f then n + 1
  else if n % 2 = 0 then n else n + 1

/-- Python fixed-point formatting with two decimals and zero padding to a
total width, as the format specifications 07.2f and 08.2f.  Callers in
this development only pass nonnegative values. -/
def pyFormatFixed (q : ℚ) (width : Nat) : String :=
  let cents := (roundHalfEven (qmul q (mkRat 100 1))).toNat
  String.mk (zfill width (natDecRepr (cents / 100) ++ ['.'] ++ zfill 2 (natDecRepr (cents % 100))))

/-- Python int applied to a float: truncation toward zero. -/
def pyIntTrunc (x : ℚ) : Int :=
  if 0 ≤ x then ⌊x⌋ else -⌊-x⌋

/-- Python max on two integers. -/
def pymax (a b : Int) : Int :=
  if a ≤ b then b else a

/-- Python str.strip restricted to character lists. -/
def trimChars (cs : List Char) : List Char :=
  ((cs.dropWhile Char.isWhitespace).reverse.dropWhile Char.isWhitespace).reverse

/-- Test for the prefix 0x after lowering, as Python
text.lower followed by startswith 0x. -/
def startsWith0x (cs : List Char) : Bool :=
  match cs with
  | '0' :: c :: _ => c = 'x' ∨ c = 'X'
  | _ => false

/-- Value of one digit character in the given base, or none when the
character is not a digit of that base, as accepted by Python int. -/
def pyDigitVal (base : Nat) (c : Char) : Option Nat :=
  let v : Option Nat :=
    if '0' ≤ c ∧ c ≤ '9' then some (c.toNat - 48)
    else if 'a' ≤ c ∧ c ≤ 'z' then some (c.toNat - 87)
    else if 'A' ≤ c ∧ c ≤ 'Z' then some (c.toNat - 55)
    else none
  match v with
  | some d => if d < base then some d else none
  | none => none

/-- Value of a digit run, most significant first; none when any character
is not a digit of the base. -/
def pyDigitsVal (base : Nat) (cs : List Char) : Option Nat :=
  cs.foldl
    (fun acc c =>
      match acc, pyDigitVal base c with
      | some a, some d => some (a * base + d)
      | _, _ => none)
    (some 0)

/-- Model of the Python builtin int on a stripped string and a base of 10
or 16: an optional sign, an optional 0x or 0X prefix when the base is 16,
then a nonempty run of digits of the base.  The underscore digit grouping
Python also accepts is not modelled; no input of this repository uses it. -/
def pyInt (cs : List Char) (base : Nat) : Option Int :=
  let sc : Int × List Char :=
    match cs with
    | '+' :: rest => (1, rest)
    | '-' :: rest => (-1, rest)
    | _ => (1, cs)
  let body : List Char :=
    if base = 16 then
      match sc.2 with
      | '0' :: c :: rest => if c = 'x' ∨ c = 'X' then rest else sc.2
      | _ => sc.2
    else sc.2
  if body.isEmpty then none
  else
    match pyDigitsVal base body with
    | some v => some (sc.1 * v)
    | none => none

/-!
Embedding of code.py, the MeshCom text-frame builder and parser.
-/

/-- code.py meshcom_fcs: the 16-bit frame check sequence is the plain sum
of all bytes reduced to its low 16 bits. -/
def meshcom_fcs (data : List Nat) : Nat :=
  data.sum % 65536

/-- code.py build_meshcom_text_frame: start marker, message id little
endian, hop byte, ASCII routing header plus text, zero terminator,
hardware id, modulation id, 16-bit sum little endian, end marker. -/
def build_meshcom_text_frame (source dest text : String)
    (msg_id max_hop hw_id mod_id : Nat) : Except String (List Nat) :=
  match encodeAscii (source ++ (">") ++ dest ++ (":") ++ text) with
  | .error e => .error e
  | .ok header_payload =>
    let body : List Nat :=
      [58] ++ le4 (msg_id % 4294967296) ++ [max_hop % 8] ++ header_payload
        ++ [0, hw_id % 256, mod_id % 256]
    let fcs := meshcom_fcs body
    .ok (body ++ [fcs % 256, fcs / 256, 35])

/-- Fields computed by the parser in code.py on a well-formed frame. -/
structure ParsedTextFrame where
  msg_id : Nat
  max_hop : Nat
  routingPayload : String
  hw_id : Nat
  mod_id : Nat
deriving DecidableEq

/-- First index holding a zero byte, as Python bytes.find of a single
zero byte starting at an offset, restricted to the searched suffix. -/
def pyFindZero (l : List Nat) : Option Nat :=
  match l with
  | [] => none
  | b :: rest => if b = 0 then some 0 else (pyFindZero rest).map (· + 1)

/-- Python packet.find of a zero byte from offset 6: index into the whole
packet of the first zero at or after position 6, none when absent. -/
def findZeroFrom6 (packet : List Nat) : Option Nat :=
  (pyFindZero (packet.drop 6)).map (· + 6)

/-- code.py parse_meshcom_frame, return value only: the Python function
returns False on a short buffer, on a bad start or end marker and on a
missing zero terminator, and True otherwise; the fields it prints along
the way are captured by parse_meshcom_fields below. -/
def parse_meshcom_frame (packet : List Nat) : Bool :=
  if packet.length < 15 then false
  else if packet.getD 0 0 ≠ 58 ∨ packet.getD (packet.length - 1) 0 ≠ 35 then false
  else
    match findZeroFrom6 packet with
    | none => false
    | some _ => true

/-- Fields computed at lines 163 to 175 of code.py when the parse
succeeds.  The message id assembles four bytes little endian; since the
packet is a Python bytes object every element is below 256, so the OR of
the disjoint shifted byte fields is written as addition.  The routing
payload is decoded as ASCII with errors ignored, which drops any byte of
value 128 or above. -/
def parse_meshcom_fields (packet : List Nat) : Option ParsedTextFrame :=
  if packet.length < 15 then none
  else if packet.getD 0 0 ≠ 58 ∨ packet.getD (packet.length - 1) 0 ≠ 35 then none
  else
    match findZeroFrom6 packet with
    | none => none
    | some payload_end =>
      let msg_id := packet.getD 1 0 + packet.getD 2 0 * 256
        + packet.getD 3 0 * 65536 + packet.getD 4 0 * 16777216
      let max_hop := packet.getD 5 0 % 8
      let routing := String.mk
        ((((packet.drop 6).take (payload_end - 6)).filter (fun b => decide (b < 128))).map Char.ofNat)
      let hw_id := if payload_end + 1 < packet.length then packet.getD (payload_end + 1) 0 else 0
      let mod_id := if payload_end + 2 < packet.length then packet.getD (payload_end + 2) 0 else 0
      some ⟨msg_id, max_hop, routing, hw_id, mod_id⟩

/-- Bounds-checked rerun of the parser: every buffer access of code.py
parse_meshcom_frame is performed through a checked lookup, and none
signals an out-of-bounds read.  Used to state that the parser never reads
outside the buffer. -/
def parse_meshcom_frame_chk (packet : List Nat) : Option Bool :=
  if packet.length < 15 then some false
  else
    match packet.get? 0, packet.get? (packet.length - 1) with
    | some b0, some bl =>
      if b0 ≠ 58 ∨ bl ≠ 35 then some false
      else
        match packet.get? 1, packet.get? 2, packet.get? 3, packet.get? 4, packet.get? 5 with
        | some _, some _, some _, some _, some _ =>
          match findZeroFrom6 packet with
          | none => some false
          | some payload_end =>
            match (if payload_end + 1 < packet.length then packet.get? (payload_end + 1) else some 0),
                  (if payload_end + 2 < packet.length then packet.get? (payload_end + 2) else some 0) with
            | some _, some _ => some true
            | _, _ => none
        | _, _, _, _, _ => none
    | _, _ => none

/-!
Embedding of meshcom.py, the MeshCom position-frame builder.
-/

/-- meshcom.py MAX_HOP_POS_DEFAULT. -/
def MAX_HOP_POS_DEFAULT : Nat := 2

/-- meshcom.py MESH_DEFAULT_MOD. -/
def MESH_DEFAULT_MOD : Nat := 3

/-- meshcom.py HW_DEFAULT. -/
def HW_DEFAULT : Nat := 4

/-- meshcom.py FW_VERSION_DEFAULT. -/
def FW_VERSION_DEFAULT : Nat := 0

/-- meshcom.py FW_SUBVERSION_SENTINEL, the byte written when the firmware
subversion is zero. -/
def FW_SUBVERSION_SENTINEL : Nat := 35

/-- Argument of meshcom.py aux routine for node ids: Python accepts an
integer or any other object rendered as a string. -/
inductive NodeIdInput where
  | int (n : Int)
  | str (s : String)
deriving DecidableEq

/-- meshcom.py aux routine for node ids: an integer is reduced to 32 bits;
a string is stripped, parsed base 16 under a case-insensitive 0x prefix
and base 10 otherwise, with 0 on parse failure, then reduced to 32 bits.
The Python mask with 0xFFFFFFFF on a possibly negative integer is the
mathematical remainder modulo 2 pow 32. -/
def _parse_node_id (node_id : NodeIdInput) : Nat :=
  match node_id with
  | .int n => (n % 4294967296).toNat
  | .str s =>
    let text := trimChars s.data
    let base := if startsWith0x text then 16 else 10
    let value : Int := (pyInt text base).getD 0
    (value % 4294967296).toNat

/-- meshcom.py aux routine converting decimal degrees to the APRS ddmm.mm
value: whole degrees times 100 plus decimal minutes; Python int of a
nonnegative float is the floor. -/
def _coord_to_aprs (dec_coord : ℚ) : ℚ :=
  let degrees : Int := ⌊qabs dec_coord⌋
  qadd (qmul (mkRat degrees 1) (mkRat 100 1))
    (qmul (qsub (qabs dec_coord) (mkRat degrees 1)) (mkRat 60 1))

/-- Geographic fix passed to the position builder; each Python dict entry
may be absent. -/
structure GeoFix where
  lat : Option ℚ
  lon : Option ℚ
  altitude : Option ℚ
deriving DecidableEq

/-- Conversion factor of meshcom.py, the float literal 3.2808399 as an
exact rational. -/
def feetPerMeter : ℚ := mkRat 32808399 10000000

/-- Altitude field of the position payload in meshcom.py: Python int of
altitude times 3.2808399, clamped below at zero, rendered as a six-digit
zero-padded decimal. -/
def toFeet (altitude : ℚ) : String :=
  pad6 (pymax 0 (pyIntTrunc (qmul altitude feetPerMeter))).toNat

/-- Modelled from the wording of the specification, for comparison only:
the same altitude field with rounding to the nearest integer in place of
truncation.  Mathlib round is used for the rounding of the specification. -/
def toFeet_specRound (altitude : ℚ) : String :=
  pad6 (pymax 0 (round (qmul altitude feetPerMeter))).toNat

/-- meshcom.py aux routine rendering the APRS position payload, raising
ValueError when the latitude or the longitude is absent. -/
def _build_payload (fix : GeoFix) (symbol : String) : Except String String :=
  match fix.lat, fix.lon with
  | some lat, some lon =>
    let lat_c := if 0 ≤ lat then ("N") else ("S")
    let lon_c := if 0 ≤ lon then ("E") else ("W")
    let lat_val := _coord_to_aprs lat
    let lon_val := _coord_to_aprs lon
    let symbol_table := (symbol.data.get? 0).getD '/'
    let symbol_code := (symbol.data.get? 1).getD '>'
    let seg1 := pyFormatFixed lat_val 7 ++ lat_c ++ String.mk [symbol_table]
      ++ pyFormatFixed lon_val 8 ++ lon_c ++ String.mk [symbol_code]
    match fix.altitude with
    | none => .ok seg1
    | some altitude => .ok (seg1 ++ ("/A=") ++ toFeet altitude)
  | _, _ => .error ("Latitude and longitude are required for MeshCom payload")

/-- meshcom.py aux routine for the rolling sequence: the module-level
counter is modelled by explicit state passing; the function returns the
current 10-bit value and the advanced stored counter. -/
def _next_sequence (s : Nat) : Nat × Nat :=
  let value := s % 1024
  (value, (value + 1) % 1024)

/-- meshcom.py aux routine encoding the frame header: payload type byte,
message id little endian, hop byte, then the ASCII routing path built
from the source, the destination and the payload type character. -/
def _encode_header (payload_type msg_id max_hop : Nat)
    (source destination : String) : Except String (List Nat) :=
  match encodeAscii (source ++ (">") ++ destination ++ String.mk [Char.ofNat payload_type]) with
  | .error e => .error e
  | .ok path => .ok ([payload_type] ++ le4 msg_id ++ [max_hop % 256] ++ path)

/-- meshcom.py aux routine appending terminator, hardware and modulation
bytes, the big-endian 16-bit byte sum over everything so far, and the
fixed trailer.  The two checksum bytes written from the unmasked sum are
bits 8 to 15 and bits 0 to 7 of the sum. -/
def _finalize (buffer : List Nat)
    (source_hw source_mod fw_version last_hw fw_subversion : Nat) : List Nat :=
  let b1 := buffer ++ [0, source_hw % 256, source_mod % 256]
  let fcs_sum := b1.sum
  b1 ++ [fcs_sum / 256 % 256, fcs_sum % 256]
    ++ [fw_version % 256, last_hw % 256,
        if fw_subversion = 0 then FW_SUBVERSION_SENTINEL else fw_subversion % 256,
        126]

/-- Python str.upper restricted to the ASCII mapping, which is all the
callsign strings of this repository use. -/
def pyUpper (s : String) : String :=
  String.mk (s.data.map Char.toUpper)

/-- Python truthiness of the optional callsign: None and the empty string
both fall back to the default. -/
def pyOrDefault (o : Option String) (d : String) : String :=
  match o with
  | none => d
  | some s => if s = ("") then d else s

/-- meshcom.py build_mesh_position_frame with the module counter passed as
explicit state.  The message id packs the 22-bit gateway id above the
10-bit sequence; the two fields occupy disjoint bit ranges, so the Python
OR is written as addition.  The counter is consumed and advanced before
the payload is validated, so the advanced counter is returned on every
path, also on the error paths. -/
def build_mesh_position_frame (fix : GeoFix) (node_id : NodeIdInput)
    (callsign : Option String) (symbol : String) (seq : Nat) :
    Except String (List Nat) × Nat :=
  let gateway_id := _parse_node_id node_id % 4194304
  let sv := _next_sequence seq
  let msg_id := gateway_id * 1024 + sv.1
  let source_call := pyUpper (pyOrDefault callsign ("NOCALL"))
  match _build_payload fix symbol with
  | .error e => (.error e, sv.2)
  | .ok payload_text =>
    match _encode_header 33 msg_id (MAX_HOP_POS_DEFAULT + 16) source_call ("*") with
    | .error e => (.error e, sv.2)
    | .ok header =>
      match encodeAscii payload_text with
      | .error e => (.error e, sv.2)
      | .ok payload_bytes =>
        (.ok (_finalize (header ++ payload_bytes)
            HW_DEFAULT MESH_DEFAULT_MOD FW_VERSION_DEFAULT HW_DEFAULT 0), sv.2)

/-!
General helper lemmas about the embedding.
-/

lemma getD_append_add (l₁ l₂ : List Nat) (i d : Nat) :
    (l₁ ++ l₂).getD (l₁.length + i) d = l₂.getD i d := by
  induction l₁ with
  | nil => simp
  | cons a t ih => simpa [Nat.succ_add] using ih

lemma drop_append_add (l₁ l₂ : List Nat) (i : Nat) :
    (l₁ ++ l₂).drop (l₁.length + i) = l₂.drop i := by
  induction l₁ with
  | nil => simp
  | cons a t ih => simp [Nat.succ_add, ih]

lemma get?_eq_some_getD (l : List Nat) (i d : Nat) (h : i < l.length) :
    l.get? i = some (l.getD i d) := by
  simp [List.getD_eq_getElem?_getD, List.getElem?_eq_getElem h, List.get?_eq_getElem?]

lemma getD_lt_of_forall (l : List Nat) (i : Nat) (h : ∀ b ∈ l, b < 256) :
    l.getD i 0 < 256 := by
  rw [List.getD_eq_getElem?_getD]
  cases hl : l[i]? with
  | none => simp
  | some a => simpa using h a (List.getElem?_mem hl)

lemma pyFindZero_append_zero (l rest : List Nat) (h : ∀ b ∈ l, b ≠ 0) :
    pyFindZero (l ++ 0 :: rest) = some l.length := by
  induction l with
  | nil => simp [pyFindZero]
  | cons a t ih =>
    have ha : a ≠ 0 := h a (by simp)
    have ht : ∀ b ∈ t, b ≠ 0 := fun b hb => h b (by simp [hb])
    simp [pyFindZero, ha, ih ht]

lemma qmul_eq (a b : ℚ) : qmul a b = a * b := by
  unfold qmul
  rw [Rat.mkRat_eq_div]
  push_cast
  conv_rhs => rw [← Rat.num_div_den a, ← Rat.num_div_den b]
  rw [div_mul_div_comm]

lemma qadd_eq (a b : ℚ) : qadd a b = a + b := by
  unfold qadd
  rw [Rat.mkRat_eq_div]
  push_cast
  have ha : ((a.den : ℚ)) ≠ 0 := Nat.cast_ne_zero.mpr a.den_nz
  have hb : ((b.den : ℚ)) ≠ 0 := Nat.cast_ne_zero.mpr b.den_nz
  conv_rhs => rw [← Rat.num_div_den a, ← Rat.num_div_den b]
  rw [div_add_div _ _ ha hb]
  ring_nf

lemma qsub_eq (a b : ℚ) : qsub a b = a - b := by
  unfold qsub
  rw [Rat.mkRat_eq_div]
  push_cast
  have ha : ((a.den : ℚ)) ≠ 0 := Nat.cast_ne_zero.mpr a.den_nz
  have hb : ((b.den : ℚ)) ≠ 0 := Nat.cast_ne_zero.mpr b.den_nz
  conv_rhs => rw [← Rat.num_div_den a, ← Rat.num_div_den b]
  rw [div_sub_div _ _ ha hb]
  ring_nf

lemma qabs_eq (a : ℚ) : qabs a = |a| := by
  unfold qabs
  rw [Rat.mkRat_eq_div]
  push_cast [Int.cast_natAbs]
  conv_rhs => rw [← Rat.num_div_den a]
  rw [abs_div]
  congr 1
  rw [abs_of_pos]
  exact_mod_cast a.pos

lemma parse_frame_eq_isSome (packet : List Nat) :
    parse_meshcom_frame packet = (parse_meshcom_fields packet).isSome := by
  unfold parse_meshcom_frame parse_meshcom_fields
  split
  · rfl
  · split
    · rfl
    · split <;> rfl

/-!
Claim theorems.
-/

/-- C5, counterexample: the altitude conversion of meshcom.py does not
round to the nearest foot as the claim states; at 0.9 meters the product
is about 2.95 feet, which the code truncates to 2 while rounding as
claimed would give 3. -/
theorem C5_counterexample :
    toFeet (9/10) = ("000002") ∧ toFeet_specRound (9/10) = ("000003") ∧
    toFeet (9/10) ≠ toFeet_specRound (9/10) := by
  have hq : (9/10 : ℚ) = mkRat 9 10 := by
    rw [Rat.mkRat_eq_div]
    norm_num
  have h1 : toFeet (9/10) = ("000002") := by
    rw [hq]
    decide
  have h2 : toFeet_specRound (9/10) = ("000003") := by
    unfold toFeet_specRound
    rw [hq, round_eq]
    have h3 : qmul (mkRat 9 10) feetPerMeter + 1/2
        = qadd (qmul (mkRat 9 10) feetPerMeter) (mkRat 1 2) := by
      rw [qadd_eq]
      congr 1
      rw [Rat.mkRat_eq_div]
      norm_num
    rw [h3]
    decide
  refine ⟨h1, h2, by rw [h1, h2]; decide⟩

/-- C5, amended: for every altitude in meters the rendered field equals
the floor of meters times 3.2808399 (truncation toward zero, which after
the clamp agrees with the floor), clamped below at zero and zero-padded
to six digits; it renders 000000 for 0.0, 000000 for -5.0 and 000328 for
100.0. -/
theorem C5_altitude_truncation (q : ℚ) :
    toFeet q = pad6 (pymax 0 ⌊q * feetPerMeter⌋).toNat ∧
    toFeet 0 = ("000000") ∧ toFeet (-5) = ("000000") ∧ toFeet 100 = ("000328") := by
  refine ⟨?_, by decide, by decide, by decide⟩
  unfold toFeet pyIntTrunc
  rw [qmul_eq]
  by_cases h : 0 ≤ q * feetPerMeter
  · rw [if_pos h]
  · rw [if_neg h]
    push_neg at h
    have h1 : ⌊q * feetPerMeter⌋ ≤ 0 := by
      have h2 : ⌊q * feetPerMeter⌋ ≤ ⌊(0 : ℚ)⌋ := Int.floor_le_floor h.le
      simpa using h2
    have h3 : 0 ≤ ⌊-(q * feetPerMeter)⌋ := by
      have h4 : (0 : ℚ) ≤ -(q * feetPerMeter) := by linarith
      exact Int.floor_nonneg.mpr h4
    congr 2
    unfold pymax
    split <;> split <;> omega

/-- C9: node-id parsing accepts an integer or a text representation and
yields a 32-bit value; text with a case-insensitive 0x prefix is read in
base 16, other text in base 10, and a parse failure yields 0; in
particular 0x3F gives 63, 63 gives 63 and not-a-number gives 0. -/
theorem C9_parse_node_id :
    _parse_node_id (.str ("0x3F")) = 63 ∧
    _parse_node_id (.str ("63")) = 63 ∧
    _parse_node_id (.str ("not-a-number")) = 0 ∧
    ∀ input : NodeIdInput, _parse_node_id input < 4294967296 := by
  refine ⟨by decide, by decide, by decide, ?_⟩
  intro input
  cases input with
  | int n => simp only [_parse_node_id]; omega
  | str s => simp only [_parse_node_id]; omega

/-- Frame of the fixed literal vector of the specification. -/
def c7frame : Except String (List Nat) :=
  build_meshcom_text_frame ("DN9APW-8") ("DN9APW-99") ("MeshCom TEST von DN9APW-8") 1 5 3 3

/-- Bytes of the fixed literal vector frame. -/
def c7bytes : List Nat :=
  c7frame.toOption.getD []

/-- C7, counterexample: on the fixed literal vector the byte at offset 5
is the hop byte 0x05, not the message-ID low byte 0x01 the claim places
there, and the byte at offset 6 is 0x44, the first routing character, not
the hop byte; under one-based counting the fifth byte is the message-ID
high byte 0x00, so the claim fails under either indexing convention. -/
theorem C7_counterexample :
    c7frame.toOption = some c7bytes ∧
    c7bytes.getD 5 0 = 5 ∧ c7bytes.getD 5 0 ≠ 1 ∧
    c7bytes.getD 6 0 = 68 ∧ c7bytes.getD 6 0 ≠ 5 ∧
    c7bytes.getD 4 0 = 0 ∧ c7bytes.getD 4 0 ≠ 1 := by
  decide

/-- C7, amended: the fixed literal vector starts with byte 0x3A, has the
message-ID low byte 0x01 at offset 1 and the hop byte 0x05 at offset 5,
ends with byte 0x23, and has total length 56, which is 1 plus 4 plus 1
plus the 44 routing and text bytes plus 1 plus 1 plus 1 plus 2 plus 1. -/
theorem C7_literal_vector :
    c7frame.toOption = some c7bytes ∧
    c7bytes.getD 0 0 = 58 ∧
    c7bytes.getD 1 0 = 1 ∧
    c7bytes.getD 5 0 = 5 ∧
    c7bytes.getD (c7bytes.length - 1) 0 = 35 ∧
    c7bytes.length = 1 + 4 + 1 + 44 + 1 + 1 + 1 + 2 + 1 := by
  decide

/-- State transition of the position builder, shared helper: the returned
counter is always the old counter advanced by one modulo 1024, on every
path including the failing ones. -/
lemma build_pos_state (fix : GeoFix) (node_id : NodeIdInput)
    (callsign : Option String) (symbol : String) (seq : Nat) :
    (build_mesh_position_frame fix node_id callsign symbol seq).2 = (seq % 1024 + 1) % 1024 := by
  simp only [build_mesh_position_frame, _next_sequence]
  repeat' split
  all_goals rfl

/-- C4, counterexample: a call of the position builder on a fix without
coordinates builds no frame, yet the sequence counter is still advanced,
from 0 to 1; the counter is therefore not mutated only when a position
frame is built. -/
theorem C4_counterexample :
    (build_mesh_position_frame ⟨none, none, none⟩ (.int 0) none ("/") 0).1.toOption = none ∧
    (build_mesh_position_frame ⟨none, none, none⟩ (.int 0) none ("/") 0).2 = 1 ∧
    (build_mesh_position_frame ⟨none, none, none⟩ (.int 0) none ("/") 0).2 ≠ 0 := by
  refine ⟨by decide, ?_, ?_⟩
  · rw [build_pos_state]
  · rw [build_pos_state]
    decide

/-- C4, amended: the rolling sequence counter is a 10-bit value advanced
by exactly one modulo 1024 on every call of the position builder, whether
or not the call returns a frame, it stays below 1024, and it wraps from
1023 to 0. -/
theorem C4_sequence_counter (fix : GeoFix) (node_id : NodeIdInput)
    (callsign : Option String) (symbol : String) (seq : Nat) :
    (build_mesh_position_frame fix node_id callsign symbol seq).2 = (seq % 1024 + 1) % 1024 ∧
    (build_mesh_position_frame fix node_id callsign symbol seq).2 < 1024 ∧
    (build_mesh_position_frame fix node_id callsign symbol 1023).2 = 0 := by
  refine ⟨build_pos_state fix node_id callsign symbol seq, ?_, ?_⟩
  · rw [build_pos_state]
    omega
  · rw [build_pos_state]

/-- C6: when the latitude or the longitude of the fix is absent, the
position builder fails for that call with the missing-field error and
returns no buffer at all. -/
theorem C6_missing_coordinate (fix : GeoFix) (node_id : NodeIdInput)
    (callsign : Option String) (symbol : String) (seq : Nat)
    (h : fix.lat = none ∨ fix.lon = none) :
    (build_mesh_position_frame fix node_id callsign symbol seq).1 =
      .error ("Latitude and longitude are required for MeshCom payload") := by
  have hp : _build_payload fix symbol =
      .error ("Latitude and longitude are required for MeshCom payload") := by
    obtain ⟨lat, lon, alt⟩ := fix
    unfold _build_payload
    rcases h with h | h
    · simp only at h
      subst h
      cases lon <;> rfl
    · simp only at h
      subst h
      cases lat <;> rfl
  simp only [build_mesh_position_frame, hp]

/-- C6, witness at a concrete fix without a latitude. -/
theorem C6_missing_coordinate_witness :
    (build_mesh_position_frame ⟨none, some 1, none⟩ (.int 0) none ("/") 0).1 =
      .error ("Latitude and longitude are required for MeshCom payload") :=
  C6_missing_coordinate ⟨none, some 1, none⟩ (.int 0) none ("/") 0 (Or.inl rfl)

/-- Shared helper: taking everything but the suffix of an append yields
the left part. -/
lemma take_sub_append (L S : List Nat) :
    (L ++ S).take ((L ++ S).length - S.length) = L := by
  have h : (L ++ S).length - S.length = L.length := by simp
  rw [h, List.take_left]

/-- Shared helper: the frame layout produced by the finalisation step at
the trailer arguments used by the position builder. -/
lemma _finalize_layout (buffer : List Nat) :
    _finalize buffer HW_DEFAULT MESH_DEFAULT_MOD FW_VERSION_DEFAULT HW_DEFAULT 0
      = (buffer ++ [0, 4, 3])
        ++ [(buffer ++ [0, 4, 3]).sum / 256 % 256, (buffer ++ [0, 4, 3]).sum % 256]
        ++ [0, 4, 35, 126] := by
  unfold _finalize HW_DEFAULT MESH_DEFAULT_MOD FW_VERSION_DEFAULT FW_SUBVERSION_SENTINEL
  norm_num

/-- Shared helper: a header accepted by the header encoder starts with the
payload-type byte. -/
lemma _encode_header_cons (payload_type msg_id max_hop : Nat) (source destination : String)
    (hdr : List Nat)
    (h : _encode_header payload_type msg_id max_hop source destination = .ok hdr) :
    ∃ rest, hdr = payload_type :: rest := by
  unfold _encode_header at h
  split at h
  · exact absurd h (by simp)
  · simp only [Except.ok.injEq] at h
    exact ⟨_, h.symm⟩

/-- Shared helper: decomposition of a text frame around its checksum. -/
lemma checksum_decomp_text (B : List Nat) :
    B ++ [meshcom_fcs B % 256, meshcom_fcs B / 256, 35]
      = (B ++ [meshcom_fcs B % 256, meshcom_fcs B / 256, 35]).take
          ((B ++ [meshcom_fcs B % 256, meshcom_fcs B / 256, 35]).length - 3)
        ++ [meshcom_fcs ((B ++ [meshcom_fcs B % 256, meshcom_fcs B / 256, 35]).take
              ((B ++ [meshcom_fcs B % 256, meshcom_fcs B / 256, 35]).length - 3)) % 256,
            meshcom_fcs ((B ++ [meshcom_fcs B % 256, meshcom_fcs B / 256, 35]).take
              ((B ++ [meshcom_fcs B % 256, meshcom_fcs B / 256, 35]).length - 3)) / 256, 35] := by
  have ht : (B ++ [meshcom_fcs B % 256, meshcom_fcs B / 256, 35]).take
      ((B ++ [meshcom_fcs B % 256, meshcom_fcs B / 256, 35]).length - 3) = B := by
    exact take_sub_append B [meshcom_fcs B % 256, meshcom_fcs B / 256, 35]
  rw [ht]

/-- Shared helper: decomposition of a finalized position frame around its
checksum. -/
lemma checksum_decomp_pos (B : List Nat) :
    B ++ [B.sum / 256 % 256, B.sum % 256] ++ [0, 4, 35, 126]
      = (B ++ [B.sum / 256 % 256, B.sum % 256] ++ [0, 4, 35, 126]).take
          ((B ++ [B.sum / 256 % 256, B.sum % 256] ++ [0, 4, 35, 126]).length - 6)
        ++ [meshcom_fcs ((B ++ [B.sum / 256 % 256, B.sum % 256] ++ [0, 4, 35, 126]).take
              ((B ++ [B.sum / 256 % 256, B.sum % 256] ++ [0, 4, 35, 126]).length - 6)) / 256,
            meshcom_fcs ((B ++ [B.sum / 256 % 256, B.sum % 256] ++ [0, 4, 35, 126]).take
              ((B ++ [B.sum / 256 % 256, B.sum % 256] ++ [0, 4, 35, 126]).length - 6)) % 256]
        ++ [0, 4, 35, 126] := by
  have ht : (B ++ [B.sum / 256 % 256, B.sum % 256] ++ [0, 4, 35, 126]).take
      ((B ++ [B.sum / 256 % 256, B.sum % 256] ++ [0, 4, 35, 126]).length - 6) = B := by
    rw [List.append_assoc]
    exact take_sub_append B ([B.sum / 256 % 256, B.sum % 256] ++ [0, 4, 35, 126])
  rw [ht]
  simp only [meshcom_fcs]
  rw [show B.sum / 256 % 256 = B.sum % 65536 / 256 from by omega,
      show B.sum % 256 = B.sum % 65536 % 256 from by omega]

/-- C2: in every frame either builder returns, the two checksum bytes are
the 16-bit byte sum of everything accumulated before them; the text frame
writes the masked sum little endian, and the position frame writes the
same masked sum, covering all preceding bytes including the payload-type
byte 0x21, big endian, followed by its four trailer bytes. -/
theorem C2_checksum (source dest text : String) (msg_id max_hop hw_id mod_id : Nat)
    (fix : GeoFix) (node_id : NodeIdInput) (callsign : Option String)
    (symbol : String) (seq : Nat) :
    (∀ frame, build_meshcom_text_frame source dest text msg_id max_hop hw_id mod_id = .ok frame →
      frame = frame.take (frame.length - 3)
        ++ [meshcom_fcs (frame.take (frame.length - 3)) % 256,
            meshcom_fcs (frame.take (frame.length - 3)) / 256, 35]) ∧
    (∀ frame, (build_mesh_position_frame fix node_id callsign symbol seq).1 = .ok frame →
      frame = frame.take (frame.length - 6)
        ++ [meshcom_fcs (frame.take (frame.length - 6)) / 256,
            meshcom_fcs (frame.take (frame.length - 6)) % 256]
        ++ [0, 4, 35, 126] ∧
      frame.getD 0 0 = 33) := by
  constructor
  · intro frame h
    unfold build_meshcom_text_frame at h
    split at h
    · exact absurd h (by simp)
    · simp only [Except.ok.injEq] at h
      subst h
      exact checksum_decomp_text _
  · intro frame h
    simp only [build_mesh_position_frame, _next_sequence] at h
    split at h
    · exact absurd h (by simp)
    · split at h
      · exact absurd h (by simp)
      · rename_i payload_text hpay header hhdr
        split at h
        · exact absurd h (by simp)
        · simp only [Except.ok.injEq] at h
          rw [_finalize_layout] at h
          subst h
          obtain ⟨rest, hrest⟩ := _encode_header_cons _ _ _ _ _ _ hhdr
          constructor
          · exact checksum_decomp_pos _
          · subst hrest
            rfl

/-- Text frame of a small concrete vector, for witnesses. -/
def c2textBytes : List Nat :=
  (build_meshcom_text_frame ("A") ("B") ("C") 1 5 3 3).toOption.getD []

/-- Position frame of a small concrete vector, for witnesses. -/
def c2posBytes : List Nat :=
  ((build_mesh_position_frame ⟨some (mkRat 101 2), some (mkRat 41 4), none⟩
      (.int 0) none ("/>") 0).1).toOption.getD []

/-- C2, witness at concrete frames of both builders. -/
theorem C2_checksum_witness :
    (c2textBytes = c2textBytes.take (c2textBytes.length - 3)
        ++ [meshcom_fcs (c2textBytes.take (c2textBytes.length - 3)) % 256,
            meshcom_fcs (c2textBytes.take (c2textBytes.length - 3)) / 256, 35]) ∧
    (c2posBytes = c2posBytes.take (c2posBytes.length - 6)
        ++ [meshcom_fcs (c2posBytes.take (c2posBytes.length - 6)) / 256,
            meshcom_fcs (c2posBytes.take (c2posBytes.length - 6)) % 256]
        ++ [0, 4, 35, 126] ∧
      c2posBytes.getD 0 0 = 33) :=
  ⟨(C2_checksum ("A") ("B") ("C") 1 5 3 3 ⟨some (mkRat 101 2), some (mkRat 41 4), none⟩
      (.int 0) none ("/>") 0).1 c2textBytes rfl,
   (C2_checksum ("A") ("B") ("C") 1 5 3 3 ⟨some (mkRat 101 2), some (mkRat 41 4), none⟩
      (.int 0) none ("/>") 0).2 c2posBytes rfl⟩

/-- Shared helper: dropping everything before the suffix of an append
yields the suffix. -/
lemma drop_sub_append (L S : List Nat) :
    (L ++ S).drop ((L ++ S).length - S.length) = S := by
  have h : (L ++ S).length - S.length = L.length := by simp
  rw [h, List.drop_left]

/-- Shared helper: full layout of a header accepted by the header
encoder. -/
lemma _encode_header_ok (payload_type msg_id max_hop : Nat) (source destination : String)
    (hdr : List Nat)
    (h : _encode_header payload_type msg_id max_hop source destination = .ok hdr) :
    ∃ path, hdr = [payload_type] ++ le4 msg_id ++ [max_hop % 256] ++ path := by
  unfold _encode_header at h
  split at h
  · exact absurd h (by simp)
  · simp only [Except.ok.injEq] at h
    exact ⟨_, h.symm⟩

/-- Shared helper: suffix facts of the position-frame layout. -/
lemma pos_layout_facts (M : List Nat) (x y : Nat) :
    ((M ++ [0, 4, 3]) ++ [x, y] ++ [0, 4, 35, 126]).drop
        (((M ++ [0, 4, 3]) ++ [x, y] ++ [0, 4, 35, 126]).length - 4) = [0, 4, 35, 126] ∧
    (((M ++ [0, 4, 3]) ++ [x, y] ++ [0, 4, 35, 126]).drop
        (((M ++ [0, 4, 3]) ++ [x, y] ++ [0, 4, 35, 126]).length - 9)).take 3 = [0, 4, 3] := by
  have hX : (M ++ [0, 4, 3]) ++ [x, y] ++ [0, 4, 35, 126]
      = M ++ [0, 4, 3, x, y, 0, 4, 35, 126] := by
    simp [List.append_assoc]
  rw [hX]
  have hlen : (M ++ [0, 4, 3, x, y, 0, 4, 35, 126]).length = M.length + 9 := by simp
  constructor
  · rw [hlen, show M.length + 9 - 4 = M.length + 5 from by omega, drop_append_add]
    rfl
  · rw [hlen, show M.length + 9 - 9 = M.length + 0 from by omega, drop_append_add]
    rfl

/-- C10: every frame the position builder returns carries the hop-control
byte 0x12 at offset 5, the terminator 0x00 followed by hardware id 4 and
modulation id 3 starting nine bytes from the end, and the four fixed
trailer bytes 0x00, 0x04, 0x23, 0x7E; no parameter of the public builder
can change any of these fields. -/
theorem C10_fixed_fields (fix : GeoFix) (node_id : NodeIdInput)
    (callsign : Option String) (symbol : String) (seq : Nat) (frame : List Nat)
    (h : (build_mesh_position_frame fix node_id callsign symbol seq).1 = .ok frame) :
    frame.getD 5 0 = 18 ∧
    frame.drop (frame.length - 4) = [0, 4, 35, 126] ∧
    (frame.drop (frame.length - 9)).take 3 = [0, 4, 3] := by
  simp only [build_mesh_position_frame, _next_sequence] at h
  split at h
  · exact absurd h (by simp)
  · split at h
    · exact absurd h (by simp)
    · rename_i payload_text hpay header hhdr
      split at h
      · exact absurd h (by simp)
      · rename_i payload_bytes hpb
        simp only [Except.ok.injEq] at h
        rw [_finalize_layout] at h
        obtain ⟨path, hpath⟩ := _encode_header_ok _ _ _ _ _ _ hhdr
        subst hpath
        subst h
        exact ⟨rfl, (pos_layout_facts _ _ _).1, (pos_layout_facts _ _ _).2⟩

/-- Buffer shorter than the minimum frame size. -/
def c3short : List Nat := []

/-- Fifteen-byte buffer whose first byte is not the start marker. -/
def c3badstart : List Nat := List.replicate 15 7

/-- Fifteen-byte buffer with a good start marker and a bad end marker. -/
def c3badend : List Nat := 58 :: List.replicate 14 7

/-- Fifteen-byte buffer with good markers and no zero terminator. -/
def c3noterm : List Nat := 58 :: (List.replicate 13 7 ++ [35])

/-- C3, counterexample: the parser of code.py returns the same bare
Boolean False for all four failure classes, namely too short, bad start
marker, bad end marker and missing terminator, and returns no field
structure on success either; the return value distinguishes none of the
failure cases, against the claim. -/
theorem C3_counterexample :
    parse_meshcom_frame c3short = false ∧
    parse_meshcom_frame c3badstart = false ∧
    parse_meshcom_frame c3badend = false ∧
    parse_meshcom_frame c3noterm = false := by
  decide

/-- C3, amended: on success the parser returns True after computing and
logging the fields, whose values satisfy the claimed ranges, the message
id below 2 pow 32, the hop count at most 7 and the two ids below 256,
with the routing payload decoded by dropping bytes above 127; every
failure returns the bare value False. -/
theorem C3_parser_fields (packet : List Nat) (f : ParsedTextFrame)
    (hb : ∀ b ∈ packet, b < 256)
    (hf : parse_meshcom_fields packet = some f) :
    parse_meshcom_frame packet = true ∧
    f.msg_id < 4294967296 ∧ f.max_hop ≤ 7 ∧ f.hw_id < 256 ∧ f.mod_id < 256 := by
  have h1 : parse_meshcom_frame packet = true := by
    rw [parse_frame_eq_isSome, hf]
    rfl
  refine ⟨h1, ?_⟩
  unfold parse_meshcom_fields at hf
  split at hf
  · exact absurd hf (by simp)
  · split at hf
    · exact absurd hf (by simp)
    · split at hf
      · exact absurd hf (by simp)
      · rename_i payload_end hpe
        simp only [Option.some.injEq] at hf
        subst hf
        refine ⟨?_, ?_, ?_, ?_⟩
        · have b1 := getD_lt_of_forall packet 1 hb
          have b2 := getD_lt_of_forall packet 2 hb
          have b3 := getD_lt_of_forall packet 3 hb
          have b4 := getD_lt_of_forall packet 4 hb
          dsimp only
          omega
        · dsimp only
          omega
        · dsimp only
          split
          · exact getD_lt_of_forall packet _ hb
          · omega
        · dsimp only
          split
          · exact getD_lt_of_forall packet _ hb
          · omega

/-- Concrete well-formed frame for the C3 witness. -/
def c3pkt : List Nat := [58, 1, 0, 0, 0, 5, 65, 62, 66, 58, 67, 0, 3, 3, 132, 1, 35]

/-- C3, witness at a concrete frame and its parsed fields. -/
theorem C3_parser_fields_witness :
    parse_meshcom_frame c3pkt = true ∧
    (⟨1, 5, ("A>B:C"), 3, 3⟩ : ParsedTextFrame).msg_id < 4294967296 ∧
    (⟨1, 5, ("A>B:C"), 3, 3⟩ : ParsedTextFrame).max_hop ≤ 7 ∧
    (⟨1, 5, ("A>B:C"), 3, 3⟩ : ParsedTextFrame).hw_id < 256 ∧
    (⟨1, 5, ("A>B:C"), 3, 3⟩ : ParsedTextFrame).mod_id < 256 :=
  C3_parser_fields c3pkt ⟨1, 5, ("A>B:C"), 3, 3⟩ (by decide) (by decide)

/-- C8: on every buffer shorter than 15 bytes the parser fails, and on
every buffer whatsoever the bounds-checked rerun of the parser completes
without any out-of-bounds access and agrees with the parser, so the
parser never raises and never reads outside the buffer. -/
theorem C8_parser_safety (packet : List Nat) :
    (packet.length < 15 → parse_meshcom_frame packet = false) ∧
    parse_meshcom_frame_chk packet = some (parse_meshcom_frame packet) := by
  constructor
  · intro h
    unfold parse_meshcom_frame
    rw [if_pos h]
  · by_cases h : packet.length < 15
    · unfold parse_meshcom_frame parse_meshcom_frame_chk
      rw [if_pos h, if_pos h]
    · have g0 := get?_eq_some_getD packet 0 0 (by omega)
      have gl := get?_eq_some_getD packet (packet.length - 1) 0 (by omega)
      have g1 := get?_eq_some_getD packet 1 0 (by omega)
      have g2 := get?_eq_some_getD packet 2 0 (by omega)
      have g3 := get?_eq_some_getD packet 3 0 (by omega)
      have g4 := get?_eq_some_getD packet 4 0 (by omega)
      have g5 := get?_eq_some_getD packet 5 0 (by omega)
      unfold parse_meshcom_frame parse_meshcom_frame_chk
      rw [if_neg h, if_neg h, g0, gl, g1, g2, g3, g4, g5]
      dsimp only
      split
      · rfl
      · split
        · rfl
        · rename_i payload_end hpe
          have e1 : (if payload_end + 1 < packet.length
                then packet.get? (payload_end + 1) else some 0)
              = some (if payload_end + 1 < packet.length
                then packet.getD (payload_end + 1) 0 else 0) := by
            split
            · exact get?_eq_some_getD packet _ 0 (by assumption)
            · rfl
          have e2 : (if payload_end + 2 < packet.length
                then packet.get? (payload_end + 2) else some 0)
              = some (if payload_end + 2 < packet.length
                then packet.getD (payload_end + 2) 0 else 0) := by
            split
            · exact get?_eq_some_getD packet _ 0 (by assumption)
            · rfl
          rw [e1, e2]

/-- C8, witness at the empty buffer. -/
theorem C8_parser_safety_witness :
    parse_meshcom_frame ([] : List Nat) = false ∧
    parse_meshcom_frame_chk ([] : List Nat) = some (parse_meshcom_frame ([] : List Nat)) :=
  ⟨(C8_parser_safety []).1 (by decide), (C8_parser_safety []).2⟩

/-- Position frame of a concrete vector for the C10 witness. -/
def c10bytes : List Nat :=
  ((build_mesh_position_frame ⟨some (mkRat 101 2), some (mkRat 41 4), none⟩
      (.int 0) none ("/>") 0).1).toOption.getD []

/-- C10, witness at a concrete position frame. -/
theorem C10_fixed_fields_witness :
    c10bytes.getD 5 0 = 18 ∧
    c10bytes.drop (c10bytes.length - 4) = [0, 4, 35, 126] ∧
    (c10bytes.drop (c10bytes.length - 9)).take 3 = [0, 4, 3] :=
  C10_fixed_fields ⟨some (mkRat 101 2), some (mkRat 41 4), none⟩
    (.int 0) none ("/>") 0 c10bytes rfl

/-- Shared helper: the parser applied to a frame of the shape the text
builder produces recovers each field; the routing payload comes back as
the ASCII decode of the embedded byte run. -/
lemma parse_fields_structured (hp : List Nat) (m hop hw md f0 f1 : Nat)
    (hhp : ∀ b ∈ hp, b ≠ 0) (hlen : 3 ≤ hp.length)
    (hm : m < 4294967296) (hhop : hop ≤ 7) :
    parse_meshcom_fields ([58] ++ le4 m ++ [hop] ++ hp ++ [0, hw, md] ++ [f0, f1, 35])
      = some ⟨m, hop, String.mk ((hp.filter (fun b => decide (b < 128))).map Char.ofNat),
          hw, md⟩ := by
  have hshape : [58] ++ le4 m ++ [hop] ++ hp ++ [0, hw, md] ++ [f0, f1, 35]
      = [58, m % 256, m / 256 % 256, m / 65536 % 256, m / 16777216 % 256, hop]
        ++ (hp ++ [0, hw, md, f0, f1, 35]) := by
    simp [le4, List.append_assoc]
  rw [hshape]
  set P := [58, m % 256, m / 256 % 256, m / 65536 % 256, m / 16777216 % 256, hop]
    ++ (hp ++ [0, hw, md, f0, f1, 35]) with hPdef
  have hPlen : P.length = hp.length + 12 := by
    rw [hPdef]
    simp
  have hsix : ∀ i, P.getD (6 + i) 0 = (hp ++ [0, hw, md, f0, f1, 35]).getD i 0 := by
    intro i
    rw [hPdef]
    have h2 := getD_append_add
      [58, m % 256, m / 256 % 256, m / 65536 % 256, m / 16777216 % 256, hop]
      (hp ++ [0, hw, md, f0, f1, 35]) i 0
    simpa using h2
  have htail : ∀ i, (hp ++ [0, hw, md, f0, f1, 35]).getD (hp.length + i) 0
      = [0, hw, md, f0, f1, 35].getD i 0 := fun i =>
    getD_append_add hp [0, hw, md, f0, f1, 35] i 0
  have hlast : P.getD (P.length - 1) 0 = 35 := by
    rw [hPlen, show hp.length + 12 - 1 = 6 + (hp.length + 5) from by omega, hsix,
      htail 5]
    rfl
  have hfind : findZeroFrom6 P = some (hp.length + 6) := by
    unfold findZeroFrom6
    rw [show P.drop 6 = hp ++ [0, hw, md, f0, f1, 35] from by rw [hPdef]; rfl]
    rw [show hp ++ [0, hw, md, f0, f1, 35] = hp ++ 0 :: [hw, md, f0, f1, 35] from rfl]
    rw [pyFindZero_append_zero hp _ hhp]
    rfl
  unfold parse_meshcom_fields
  rw [if_neg (by rw [hPlen]; omega)]
  rw [if_neg (by
    simp only [show P.getD 0 0 = 58 from by rw [hPdef]; rfl, hlast]
    simp)]
  simp only [hfind]
  rw [Option.some.injEq, ParsedTextFrame.mk.injEq]
  refine ⟨?_, ?_, ?_, ?_, ?_⟩
  · rw [show P.getD 1 0 = m % 256 from by rw [hPdef]; rfl,
        show P.getD 2 0 = m / 256 % 256 from by rw [hPdef]; rfl,
        show P.getD 3 0 = m / 65536 % 256 from by rw [hPdef]; rfl,
        show P.getD 4 0 = m / 16777216 % 256 from by rw [hPdef]; rfl]
    omega
  · rw [show P.getD 5 0 = hop from by rw [hPdef]; rfl]
    omega
  · rw [show P.drop 6 = hp ++ [0, hw, md, f0, f1, 35] from by rw [hPdef]; rfl,
        show hp.length + 6 - 6 = hp.length from by omega,
        List.take_left]
  · rw [if_pos (by rw [hPlen]; omega),
        show hp.length + 6 + 1 = 6 + (hp.length + 1) from by omega, hsix, htail 1]
    rfl
  · rw [if_pos (by rw [hPlen]; omega),
        show hp.length + 6 + 2 = 6 + (hp.length + 2) from by omega, hsix, htail 2]
    rfl

/-- C1: for all valid inputs, that is ASCII call signs and text without a
zero character, a nonempty routing header, a 32-bit message id, a hop
count up to 7 and byte-sized hardware and modulation ids, parsing the
frame the builder returns recovers the message id, the hop count, both
ids, and the routing payload string source, greater-than sign, dest,
colon, text. -/
theorem C1_roundtrip (source dest text : String) (msg_id max_hop hw_id mod_id : Nat)
    (hsrc : ∀ c ∈ source.data, 0 < c.toNat ∧ c.toNat < 128)
    (hdst : ∀ c ∈ dest.data, 0 < c.toNat ∧ c.toNat < 128)
    (htxt : ∀ c ∈ text.data, 0 < c.toNat ∧ c.toNat < 128)
    (hne : 1 ≤ source.length + dest.length + text.length)
    (hmsg : msg_id < 4294967296) (hhop : max_hop ≤ 7)
    (hhw : hw_id < 256) (hmod : mod_id < 256) :
    (build_meshcom_text_frame source dest text msg_id max_hop hw_id mod_id).map
        parse_meshcom_fields
      = .ok (some ⟨msg_id, max_hop,
          source ++ (">") ++ dest ++ (":") ++ text, hw_id, mod_id⟩) := by
  have hchars : ∀ c ∈ (source ++ (">") ++ dest ++ (":") ++ text).data,
      0 < c.toNat ∧ c.toNat < 128 := by
    intro c hc
    simp only [String.data_append, List.mem_append,
      show ((">") : String).data = ['>'] from rfl,
      show ((":") : String).data = [':'] from rfl, List.mem_singleton] at hc
    rcases hc with (((hc | hc) | hc) | hc) | hc
    · exact hsrc c hc
    · subst hc
      decide
    · exact hdst c hc
    · subst hc
      decide
    · exact htxt c hc
  have hEnc : encodeAscii (source ++ (">") ++ dest ++ (":") ++ text)
      = .ok ((source ++ (">") ++ dest ++ (":") ++ text).data.map Char.toNat) := by
    unfold encodeAscii
    rw [if_pos]
    rw [List.all_eq_true]
    intro c hc
    simpa using (hchars c hc).2
  have hhplen : ((source ++ (">") ++ dest ++ (":") ++ text).data.map Char.toNat).length
      = source.data.length + dest.data.length + text.data.length + 2 := by
    simp only [List.length_map, String.data_append, List.length_append,
      show ((">") : String).data = ['>'] from rfl,
      show ((":") : String).data = [':'] from rfl]
    simp
    omega
  have hhpne : ∀ b ∈ (source ++ (">") ++ dest ++ (":") ++ text).data.map Char.toNat,
      b ≠ 0 := by
    intro b hb
    obtain ⟨c, hc, rfl⟩ := List.mem_map.mp hb
    have h2 := (hchars c hc).1
    omega
  unfold build_meshcom_text_frame
  rw [hEnc]
  simp only [Except.map]
  rw [show ([58] ++ le4 (msg_id % 4294967296) ++ [max_hop % 8]
        ++ (source ++ (">") ++ dest ++ (":") ++ text).data.map Char.toNat
        ++ [0, hw_id % 256, mod_id % 256])
      = [58] ++ le4 msg_id ++ [max_hop]
        ++ (source ++ (">") ++ dest ++ (":") ++ text).data.map Char.toNat
        ++ [0, hw_id, mod_id] from by
    rw [Nat.mod_eq_of_lt hmsg, Nat.mod_eq_of_lt hhw, Nat.mod_eq_of_lt hmod,
      Nat.mod_eq_of_lt (show max_hop < 8 from by omega)]]
  rw [show ∀ a b : Nat,
      ([58] ++ le4 msg_id ++ [max_hop]
        ++ (source ++ (">") ++ dest ++ (":") ++ text).data.map Char.toNat
        ++ [0, hw_id, mod_id]) ++ [a, b, 35]
      = [58] ++ le4 msg_id ++ [max_hop]
        ++ (source ++ (">") ++ dest ++ (":") ++ text).data.map Char.toNat
        ++ [0, hw_id, mod_id] ++ [a, b, 35] from fun a b => by
    simp [List.append_assoc]]
  rw [parse_fields_structured _ msg_id max_hop hw_id mod_id _ _ hhpne
    (by
      rw [hhplen]
      have h3 : 1 ≤ source.data.length + dest.data.length + text.data.length := hne
      omega)
    hmsg hhop]
  rw [Except.ok.injEq, Option.some.injEq, ParsedTextFrame.mk.injEq]
  refine ⟨rfl, rfl, ?_, rfl, rfl⟩
  rw [List.filter_eq_self.mpr (by
    intro b hb
    obtain ⟨c, hc, rfl⟩ := List.mem_map.mp hb
    simpa using (hchars c hc).2)]
  rw [List.map_map]
  have hmapid : List.map (Char.ofNat ∘ Char.toNat)
      (source ++ (">") ++ dest ++ (":") ++ text).data
      = (source ++ (">") ++ dest ++ (":") ++ text).data := by
    have h4 : List.map (Char.ofNat ∘ Char.toNat)
        (source ++ (">") ++ dest ++ (":") ++ text).data
        = List.map id (source ++ (">") ++ dest ++ (":") ++ text).data :=
      List.map_congr_left (fun c _ => Char.ofNat_toNat c)
    rw [h4, List.map_id]
  rw [hmapid]

/-- C1, witness at a small concrete vector. -/
theorem C1_roundtrip_witness :
    (build_meshcom_text_frame ("A") ("B") ("C") 1 5 3 3).map parse_meshcom_fields
      = .ok (some ⟨1, 5, ("A") ++ (">") ++ ("B") ++ (":") ++ ("C"), 3, 3⟩) :=
  C1_roundtrip ("A") ("B") ("C") 1 5 3 3 (by decide) (by decide) (by decide)
    (by decide) (by decide) (by decide) (by decide) (by decide)
